import Mathlib

/-!
Verification of `src/scripts/splice_data_to_fasta.py`.

The script reads a comma-separated text file, turns every line into a
two-line FASTA record (`>` + field 0, newline, field 2 with all spaces
removed, newline), concatenates the records in input order, and writes
the result to the fixed file name `splice.data.fasta`.

Strings of the Python program are modelled as `List Char`; the file
system is modelled as a partial map from file names to file contents.
-/

set_option autoImplicit false

/-- Python `str.split(sep)` for a one-character separator `sep`
(`line.split(',')` at line 30 of the script): splitting the empty
string yields `[[]]`, adjacent separators yield empty fields, and the
separator itself never appears in a field. -/
def splitChar (sep : Char) : List Char → List (List Char)
  | [] => [[]]
  | c :: cs =>
    if c = sep then [] :: splitChar sep cs
    else
      match splitChar sep cs with
      | [] => [[c]]
      | f :: rest => (c :: f) :: rest

/-- Helper for `pyLines`: `acc` holds the (reversed) characters of the
current line read so far. -/
def pyLinesAux : List Char → List Char → List (List Char)
  | acc, [] => if acc.isEmpty then [] else [acc.reverse]
  | acc, c :: cs =>
    if c = '\n' then (acc.reverse ++ ['\n']) :: pyLinesAux [] cs
    else pyLinesAux (c :: acc) cs

/-- Python line iteration over a file's contents, as produced by
`tuple(open(path, 'r'))` at line 24 of the script: the contents are cut
after every `'\n'`; every line except possibly the last keeps its
trailing `'\n'`; an empty file yields no lines. -/
def pyLines (s : List Char) : List (List Char) := pyLinesAux [] s

/-- `line.replace('\n', '')` (line 29 of the script): every newline
character of the line is removed. -/
def strippedOf (line : List Char) : List Char := line.filter (fun c => c ≠ '\n')

/-- `attributes_sequence = line.replace('\n', '').split(',')`
(lines 29-30 of the script). -/
def fieldsOf (line : List Char) : List (List Char) := splitChar ',' (strippedOf line)

/-- One iteration of the per-line loop (lines 28-34 of the script):
`'>' + attributes_sequence[0] + '\n' + attributes_sequence[2].replace(' ', '') + '\n'`.
The result is `none` exactly when `attributes_sequence[2]` raises an
`IndexError`, i.e. when the line has fewer than three comma-separated
fields (`attributes_sequence[0]` never fails: a split is never empty). -/
def processLine (line : List Char) : Option (List Char) :=
  match fieldsOf line with
  | f0 :: _ :: f2 :: _ =>
      some ('>' :: f0 ++ '\n' :: (f2.filter (fun c => c ≠ ' ') ++ ['\n']))
  | _ => none

/-- The whole loop of lines 26-35 of the script: the accumulated
`content` string, or `none` if some line raised an `IndexError`. -/
def convertLines : List (List Char) → Option (List Char)
  | [] => some []
  | l :: ls =>
    match processLine l, convertLines ls with
    | some frag, some rest => some (frag ++ rest)
    | _, _ => none

/-- The header line contributed by one input line: `'>'`, then
`attributes_sequence[0]`, then a newline (lines 28, 31, 33). -/
def headerLineOf (line : List Char) : List Char :=
  '>' :: (fieldsOf line).headI ++ ['\n']

/-- The sequence line contributed by one input line:
`attributes_sequence[2].replace(' ', '')`, then a newline (lines 32, 34). -/
def seqLineOf (line : List Char) : List Char :=
  ((fieldsOf line).getD 2 []).filter (fun c => c ≠ ' ') ++ ['\n']

/-- The two output lines of the FASTA record produced from one
well-formed input line. -/
def recordLinesOf (line : List Char) : List (List Char) :=
  [headerLineOf line, seqLineOf line]

/-- The full FASTA fragment produced from one well-formed input line. -/
def fragmentOf (line : List Char) : List Char :=
  headerLineOf line ++ seqLineOf line

/-- The hard-coded output file name (line 37 of the script). -/
def outputName : String := "splice.data.fasta"

/-- The three usage lines printed to standard output when the argument
count is wrong (lines 19-21 of the script). -/
def usageLines : List String :=
  ["\nError: insufficient arguments.\n",
   "Command:\n\n\tsplice_data_to_fasta.py <path_splice_data>",
   "\tExample: splice_data_to_fasta.py splice.data.txt"]

/-- The completion message printed on success (line 41 of the script). -/
def doneLine : String := "\nThe \"splice.data.fasta\" file was generated.\n"

/-- Observable outcome of one process run: the resulting file system,
what was printed to standard output and to standard error (an uncaught
Python exception prints its traceback to standard error; we record the
exception's name), and the process exit code. -/
structure ProcResult where
  fs : String → Option (List Char)
  stdout : List String
  stderr : List String
  exitCode : Nat

/-- The whole script run as a process. `argv` is the list of positional
arguments after the script name (so Python's `len(sys.argv) != 2` is
`argv.length ≠ 1`, lines 18-21); `fs` maps a file name to its contents,
`none` when opening it for reading fails (line 24 raises, the process
dies with a nonzero exit status). With one readable argument the loop of
lines 26-35 runs; an `IndexError` on a short line is uncaught and kills
the process before `splice.data.fasta` is opened for writing; otherwise
lines 37-39 truncate-and-write the output file and line 41 prints the
completion message. -/
def runProgram (argv : List String) (fs : String → Option (List Char)) : ProcResult :=
  match argv with
  | [path] =>
    match fs path with
    | none =>
        { fs := fs, stdout := [], stderr := ["FileNotFoundError"], exitCode := 1 }
    | some content =>
      match convertLines (pyLines content) with
      | none =>
          { fs := fs, stdout := [], stderr := ["IndexError"], exitCode := 1 }
      | some out =>
          { fs := fun name => if name = outputName then some out else fs name,
            stdout := [doneLine], stderr := [], exitCode := 0 }
  | _ => { fs := fs, stdout := usageLines, stderr := [], exitCode := 0 }

/-- Claim C1: the per-line transformation sends the input line
`"EI,HUMAN,AG CCG TGA"` to exactly the fragment `">EI\nAGCCGTGA\n"`:
field 0 appears verbatim after `'>'` and exactly the space characters
are removed from field 2. -/
theorem spliceC1_field_extraction :
    processLine ("EI,HUMAN,AG CCG TGA".toList) = some (">EI\nAGCCGTGA\n".toList) := by
  decide

theorem splitChar_ne_nil (sep : Char) : ∀ s : List Char, splitChar sep s ≠ [] := by
  intro s
  induction s with
  | nil => simp [splitChar]
  | cons c cs ih =>
    simp only [splitChar]
    split
    · simp
    · cases h : splitChar sep cs <;> simp

theorem mem_of_mem_splitChar (sep : Char) :
    ∀ (s f : List Char), f ∈ splitChar sep s → ∀ c ∈ f, c ∈ s := by
  intro s
  induction s with
  | nil =>
    intro f hf c hc
    simp only [splitChar, List.mem_singleton] at hf
    subst hf
    simp at hc
  | cons a s' ih =>
    intro f hf c hc
    simp only [splitChar] at hf
    by_cases ha : a = sep
    · rw [if_pos ha] at hf
      rcases List.mem_cons.mp hf with rfl | hf
      · simp at hc
      · exact List.mem_cons_of_mem _ (ih f hf c hc)
    · rw [if_neg ha] at hf
      cases h : splitChar sep s' with
      | nil => exact absurd h (splitChar_ne_nil sep s')
      | cons g rest =>
        rw [h] at hf
        rcases List.mem_cons.mp hf with rfl | hf
        · rcases List.mem_cons.mp hc with rfl | hc
          · exact List.mem_cons_self _ _
          · exact List.mem_cons_of_mem _
              (ih g (h ▸ List.mem_cons_self g rest) c hc)
        · exact List.mem_cons_of_mem _
            (ih f (h ▸ List.mem_cons_of_mem g hf) c hc)

theorem newline_not_mem_field (line f : List Char) (hf : f ∈ fieldsOf line) :
    '\n' ∉ f := by
  intro hc
  have := mem_of_mem_splitChar ',' (strippedOf line) f hf '\n' hc
  simp [strippedOf] at this

theorem fieldsOf_decomp (line : List Char) (h : 3 ≤ (fieldsOf line).length) :
    ∃ f0 f1 f2 r, fieldsOf line = f0 :: f1 :: f2 :: r := by
  rcases hf : fieldsOf line with _ | ⟨f0, _ | ⟨f1, _ | ⟨f2, r⟩⟩⟩ <;>
    simp [hf] at h ⊢

theorem processLine_eq_some (line : List Char) (h : 3 ≤ (fieldsOf line).length) :
    processLine line = some (fragmentOf line) := by
  obtain ⟨f0, f1, f2, r, hf⟩ := fieldsOf_decomp line h
  simp [processLine, hf, fragmentOf, headerLineOf, seqLineOf]

theorem processLine_eq_none_iff (line : List Char) :
    processLine line = none ↔ (fieldsOf line).length < 3 := by
  rcases hf : fieldsOf line with _ | ⟨f0, _ | ⟨f1, _ | ⟨f2, r⟩⟩⟩ <;>
    simp [processLine, hf]

theorem convertLines_eq_none_iff (ls : List (List Char)) :
    convertLines ls = none ↔ ∃ l ∈ ls, processLine l = none := by
  induction ls with
  | nil => simp [convertLines]
  | cons l ls' ih =>
    rw [convertLines]
    cases hp : processLine l <;> cases hc : convertLines ls' <;>
      simp_all

theorem convertLines_eq_some (ls : List (List Char))
    (h : ∀ l ∈ ls, 3 ≤ (fieldsOf l).length) :
    convertLines ls = some ((ls.map fragmentOf).flatten) := by
  induction ls with
  | nil => simp [convertLines]
  | cons l ls' ih =>
    have h1 := processLine_eq_some l (h l (List.mem_cons_self l ls'))
    have h2 := ih (fun x hx => h x (List.mem_cons_of_mem l hx))
    simp [convertLines, h1, h2]

theorem pyLinesAux_no_newline {l : List Char} (hl : '\n' ∉ l) :
    ∀ (acc rest : List Char),
      pyLinesAux acc (l ++ '\n' :: rest) =
        (acc.reverse ++ l ++ ['\n']) :: pyLinesAux [] rest := by
  induction l with
  | nil => intro acc rest; simp [pyLinesAux]
  | cons c l' ih =>
    intro acc rest
    have hc : ¬(c = '\n') := fun h => hl (h ▸ List.mem_cons_self c l')
    rw [List.cons_append, pyLinesAux, if_neg hc,
      ih (fun h => hl (List.mem_cons_of_mem c h)) (c :: acc) rest]
    simp

theorem pyLines_fragment_cons (f0 sq rest : List Char)
    (h0 : '\n' ∉ f0) (hs : '\n' ∉ sq) :
    pyLines ('>' :: (f0 ++ '\n' :: (sq ++ '\n' :: rest))) =
      ('>' :: f0 ++ ['\n']) :: (sq ++ ['\n']) :: pyLines rest := by
  have h0' : '\n' ∉ '>' :: f0 := by
    intro h
    rcases List.mem_cons.mp h with h | h
    · exact absurd h.symm (by decide)
    · exact h0 h
  have e : '>' :: (f0 ++ '\n' :: (sq ++ '\n' :: rest)) =
      ('>' :: f0) ++ '\n' :: (sq ++ '\n' :: rest) := by
    simp
  rw [e, pyLines, pyLinesAux_no_newline h0' [] (sq ++ '\n' :: rest),
    pyLinesAux_no_newline hs [] rest]
  simp [pyLines]

theorem pyLines_flatten_fragments (ls : List (List Char))
    (h : ∀ l ∈ ls, 3 ≤ (fieldsOf l).length) :
    pyLines ((ls.map fragmentOf).flatten) = (ls.map recordLinesOf).flatten := by
  induction ls with
  | nil => rfl
  | cons l ls' ih =>
    obtain ⟨f0, f1, f2, r, hf⟩ := fieldsOf_decomp l (h l (List.mem_cons_self l ls'))
    have h0 : '\n' ∉ (fieldsOf l).headI := by
      apply newline_not_mem_field l
      rw [hf]; exact List.mem_cons_self _ _
    have hs : '\n' ∉ ((fieldsOf l).getD 2 []).filter (fun c => c ≠ ' ') := by
      intro hmem
      have hmem2 : '\n' ∈ (fieldsOf l).getD 2 [] := (List.mem_filter.mp hmem).1
      refine newline_not_mem_field l _ ?_ hmem2
      rw [hf]; exact List.mem_cons_of_mem _
        (List.mem_cons_of_mem _ (List.mem_cons_self _ _))
    rw [List.map_cons, List.flatten_cons, fragmentOf, headerLineOf, seqLineOf]
    simp only [List.cons_append, List.nil_append, List.append_assoc,
      List.singleton_append]
    rw [pyLines_fragment_cons _ _ _ h0 hs,
      ih (fun x hx => h x (List.mem_cons_of_mem l hx))]
    rfl

theorem recordLines_flatten_length (ls : List (List Char)) :
    ((ls.map recordLinesOf).flatten).length = 2 * ls.length := by
  induction ls with
  | nil => rfl
  | cons l ls' ih =>
    simp only [List.map_cons, List.flatten_cons, List.length_append, ih,
      recordLinesOf, List.length_cons, List.length_nil]
    omega

/-- Claim C2: for an input file all of whose lines have at least three
comma-separated fields, the program writes to `splice.data.fasta` exactly
the concatenation, in input order, of one FASTA fragment per input line;
the line decomposition of that output is, for each input line in order,
its header line followed by its sequence line (so exactly N two-line
records for N input lines, with no blank lines between records, 2N output
lines in total). -/
theorem spliceC2_order_preservation (p : String) (fs : String → Option (List Char))
    (content : List Char) (hfs : fs p = some content)
    (h : ∀ l ∈ pyLines content, 3 ≤ (fieldsOf l).length) :
    (runProgram [p] fs).fs outputName =
        some (((pyLines content).map fragmentOf).flatten) ∧
    pyLines (((pyLines content).map fragmentOf).flatten) =
        ((pyLines content).map recordLinesOf).flatten ∧
    (((pyLines content).map recordLinesOf).flatten).length =
        2 * (pyLines content).length := by
  refine ⟨?_, pyLines_flatten_fragments _ h, recordLines_flatten_length _⟩
  have hc := convertLines_eq_some (pyLines content) h
  simp [runProgram, hfs, hc]

/-- Claim C3: on a readable input file, the run dies with an uncaught
`IndexError` (nonzero exit code) exactly when some input line has fewer
than three comma-separated fields. -/
theorem spliceC3_index_error_iff (p : String) (fs : String → Option (List Char))
    (content : List Char) (hfs : fs p = some content) :
    ((runProgram [p] fs).stderr = ["IndexError"] ↔
        ∃ l ∈ pyLines content, (fieldsOf l).length < 3) ∧
    ((runProgram [p] fs).stderr = ["IndexError"] → (runProgram [p] fs).exitCode ≠ 0) := by
  cases hc : convertLines (pyLines content) with
  | none =>
    have hr : runProgram [p] fs =
        { fs := fs, stdout := [], stderr := ["IndexError"], exitCode := 1 } := by
      simp [runProgram, hfs, hc]
    rw [hr]
    refine ⟨⟨fun _ => ?_, fun _ => rfl⟩, fun _ => by simp⟩
    obtain ⟨l, hl, hp⟩ := (convertLines_eq_none_iff (pyLines content)).mp hc
    exact ⟨l, hl, (processLine_eq_none_iff l).mp hp⟩
  | some out =>
    have hr : runProgram [p] fs =
        { fs := fun name => if name = outputName then some out else fs name,
          stdout := [doneLine], stderr := [], exitCode := 0 } := by
      simp [runProgram, hfs, hc]
    rw [hr]
    refine ⟨⟨fun habs => absurd habs (by simp), fun hex => ?_⟩,
      fun habs => absurd habs (by simp)⟩
    obtain ⟨l, hl, hlen⟩ := hex
    have hnone : convertLines (pyLines content) = none :=
      (convertLines_eq_none_iff _).mpr ⟨l, hl, (processLine_eq_none_iff l).mpr hlen⟩
    rw [hc] at hnone
    exact absurd hnone (by simp)

/-- Claim C4: with an argument count different from one, the program
prints the usage message to standard output only (nothing on standard
error), leaves the file system untouched, and exits with code 0. -/
theorem spliceC4_usage_path (argv : List String) (fs : String → Option (List Char))
    (h : argv.length ≠ 1) :
    (runProgram argv fs).stdout = usageLines ∧
    (runProgram argv fs).stderr = [] ∧
    (runProgram argv fs).fs = fs ∧
    (runProgram argv fs).exitCode = 0 := by
  rcases argv with _ | ⟨p, _ | ⟨q, r⟩⟩
  · exact ⟨rfl, rfl, rfl, rfl⟩
  · exact absurd rfl h
  · exact ⟨rfl, rfl, rfl, rfl⟩

/-- Claim C5: with one argument naming a file that cannot be opened for
reading, the process exits with a nonzero status and the file system —
in particular `splice.data.fasta` — is unchanged. -/
theorem spliceC5_missing_input (p : String) (fs : String → Option (List Char))
    (h : fs p = none) :
    (runProgram [p] fs).exitCode ≠ 0 ∧ (runProgram [p] fs).fs = fs := by
  have hr : runProgram [p] fs =
      { fs := fs, stdout := [], stderr := ["FileNotFoundError"], exitCode := 1 } := by
    simp [runProgram, h]
  rw [hr]
  exact ⟨by simp, rfl⟩

/-- Claim C6: on a successful run, `splice.data.fasta` ends up holding
exactly the converted content, whatever it held before the run
(truncate-and-write, not append): the pre-existing value `fs outputName`
does not appear in the result. -/
theorem spliceC6_truncate_write (p : String) (fs : String → Option (List Char))
    (content out : List Char) (hfs : fs p = some content)
    (hconv : convertLines (pyLines content) = some out) :
    (runProgram [p] fs).fs outputName = some out ∧
    (runProgram [p] fs).exitCode = 0 := by
  simp [runProgram, hfs, hconv]

/-- Claim C7: two runs on files with the same contents — possibly under
different paths and on otherwise different file systems — leave the same
`splice.data.fasta` contents; the output is a function of the input
file's contents alone, and if the first run succeeds so does the second. -/
theorem spliceC7_deterministic (p q : String)
    (fs1 fs2 : String → Option (List Char)) (content : List Char)
    (h1 : fs1 p = some content) (h2 : fs2 q = some content)
    (hok : (runProgram [p] fs1).exitCode = 0) :
    (runProgram [p] fs1).fs outputName = (runProgram [q] fs2).fs outputName ∧
    (runProgram [q] fs2).exitCode = 0 := by
  cases hc : convertLines (pyLines content) with
  | none =>
    exfalso
    simp [runProgram, h1, hc] at hok
  | some out =>
    constructor
    · simp [runProgram, h1, h2, hc]
    · simp [runProgram, h2, hc]

set_option linter.unnecessarySeqFocus false in
/-- Claim C8: two input lines that agree on comma-separated fields 0
and 2 produce the same result — field 1 and any fields beyond the third
have no effect on the fragment. -/
theorem spliceC8_ignored_fields (l1 l2 : List Char)
    (h0 : (fieldsOf l1)[0]? = (fieldsOf l2)[0]?)
    (h2 : (fieldsOf l1)[2]? = (fieldsOf l2)[2]?) :
    processLine l1 = processLine l2 := by
  rcases hf1 : fieldsOf l1 with _ | ⟨a0, _ | ⟨a1, _ | ⟨a2, ar⟩⟩⟩ <;>
    rcases hf2 : fieldsOf l2 with _ | ⟨b0, _ | ⟨b1, _ | ⟨b2, br⟩⟩⟩ <;>
      rw [hf1, hf2] at h0 h2 <;>
        simp [processLine, hf1, hf2] at h0 h2 ⊢ <;> simp_all

/-- Claim C9: on a readable input file with some line of fewer than
three comma-separated fields, the run fails without touching the file
system at all: `splice.data.fasta` is opened for writing only after
every line has been processed, so no partial output is ever written. -/
theorem spliceC9_no_partial_write (p : String) (fs : String → Option (List Char))
    (content : List Char) (hfs : fs p = some content)
    (hbad : ∃ l ∈ pyLines content, (fieldsOf l).length < 3) :
    (runProgram [p] fs).fs = fs ∧ (runProgram [p] fs).exitCode ≠ 0 := by
  obtain ⟨l, hl, hlen⟩ := hbad
  have hc : convertLines (pyLines content) = none :=
    (convertLines_eq_none_iff _).mpr ⟨l, hl, (processLine_eq_none_iff l).mpr hlen⟩
  simp [runProgram, hfs, hc]

/-- Claim C10: on an existing, readable, empty input file the program
succeeds: it writes a zero-byte `splice.data.fasta`, prints the
completion message, and exits with code 0. -/
theorem spliceC10_empty_input (p : String) (fs : String → Option (List Char))
    (hfs : fs p = some []) :
    (runProgram [p] fs).fs outputName = some [] ∧
    (runProgram [p] fs).stdout = [doneLine] ∧
    (runProgram [p] fs).exitCode = 0 := by
  have hc : convertLines (pyLines ([] : List Char)) = some [] := rfl
  simp [runProgram, hfs, hc]

/-- Witness for C2 at the two-line input of spec property P6. -/
theorem spliceC2_order_preservation_witness :
    ((fun n => if n = "splice.data.txt"
        then some ("N,HUMAN,CAGGTAAGT\nEI,HUMAN,AG GTG AGT\n".toList)
        else none) "splice.data.txt"
      = some ("N,HUMAN,CAGGTAAGT\nEI,HUMAN,AG GTG AGT\n".toList)) ∧
    (∀ l ∈ pyLines ("N,HUMAN,CAGGTAAGT\nEI,HUMAN,AG GTG AGT\n".toList),
        3 ≤ (fieldsOf l).length) ∧
    (runProgram ["splice.data.txt"]
        (fun n => if n = "splice.data.txt"
          then some ("N,HUMAN,CAGGTAAGT\nEI,HUMAN,AG GTG AGT\n".toList)
          else none)).fs outputName =
      some (((pyLines ("N,HUMAN,CAGGTAAGT\nEI,HUMAN,AG GTG AGT\n".toList)).map
        fragmentOf).flatten) :=
  ⟨by decide, by decide,
    (spliceC2_order_preservation "splice.data.txt" _ _ (by decide) (by decide)).1⟩

/-- Witness for C3 at a readable one-line input whose line has only two
comma-separated fields. -/
theorem spliceC3_index_error_iff_witness :
    ((fun n => if n = "bad.txt" then some ("EI,HUMAN\n".toList) else none) "bad.txt"
        = some ("EI,HUMAN\n".toList)) ∧
    (((runProgram ["bad.txt"]
          (fun n => if n = "bad.txt" then some ("EI,HUMAN\n".toList) else none)).stderr
        = ["IndexError"] ↔
        ∃ l ∈ pyLines ("EI,HUMAN\n".toList), (fieldsOf l).length < 3) ∧
     ((runProgram ["bad.txt"]
          (fun n => if n = "bad.txt" then some ("EI,HUMAN\n".toList) else none)).stderr
        = ["IndexError"] →
      (runProgram ["bad.txt"]
          (fun n => if n = "bad.txt" then some ("EI,HUMAN\n".toList) else none)).exitCode
        ≠ 0)) :=
  ⟨by decide, spliceC3_index_error_iff "bad.txt" _ _ (by decide)⟩

/-- Witness for C4 at the zero-argument invocation. -/
theorem spliceC4_usage_path_witness :
    (([] : List String).length ≠ 1) ∧
    ((runProgram [] (fun _ => (none : Option (List Char)))).stdout = usageLines ∧
     (runProgram [] (fun _ => (none : Option (List Char)))).stderr = [] ∧
     (runProgram [] (fun _ => (none : Option (List Char)))).fs = (fun _ => none) ∧
     (runProgram [] (fun _ => (none : Option (List Char)))).exitCode = 0) :=
  ⟨by decide, spliceC4_usage_path [] _ (by decide)⟩

/-- Witness for C5 at a file system where no file can be opened. -/
theorem spliceC5_missing_input_witness :
    ((fun _ => (none : Option (List Char))) "missing.txt" = none) ∧
    ((runProgram ["missing.txt"] (fun _ => (none : Option (List Char)))).exitCode ≠ 0 ∧
     (runProgram ["missing.txt"] (fun _ => (none : Option (List Char)))).fs
        = (fun _ => none)) :=
  ⟨rfl, spliceC5_missing_input "missing.txt" _ rfl⟩

/-- Witness for C6 at a file system where `splice.data.fasta` already
holds stale content that does not survive the run. -/
theorem spliceC6_truncate_write_witness :
    ((fun n => if n = "in.txt" then some ("EI,HUMAN,AG CT\n".toList)
        else if n = outputName then some ("OLD".toList) else none) "in.txt"
      = some ("EI,HUMAN,AG CT\n".toList)) ∧
    (convertLines (pyLines ("EI,HUMAN,AG CT\n".toList)) = some (">EI\nAGCT\n".toList)) ∧
    ((runProgram ["in.txt"]
        (fun n => if n = "in.txt" then some ("EI,HUMAN,AG CT\n".toList)
          else if n = outputName then some ("OLD".toList) else none)).fs outputName
      = some (">EI\nAGCT\n".toList) ∧
     (runProgram ["in.txt"]
        (fun n => if n = "in.txt" then some ("EI,HUMAN,AG CT\n".toList)
          else if n = outputName then some ("OLD".toList) else none)).exitCode = 0) :=
  ⟨by decide, by decide,
    spliceC6_truncate_write "in.txt"
      (fun n => if n = "in.txt" then some ("EI,HUMAN,AG CT\n".toList)
        else if n = outputName then some ("OLD".toList) else none)
      ("EI,HUMAN,AG CT\n".toList) (">EI\nAGCT\n".toList) (by decide) (by decide)⟩

/-- Witness for C7: the same input contents under two different paths on
two otherwise different file systems. -/
theorem spliceC7_deterministic_witness :
    ((fun n => if n = "a.txt" then some ("IE,HUMAN,TT GG\n".toList) else none) "a.txt"
      = some ("IE,HUMAN,TT GG\n".toList)) ∧
    ((fun n => if n = "b.txt" then some ("IE,HUMAN,TT GG\n".toList)
        else some ("junk".toList)) "b.txt"
      = some ("IE,HUMAN,TT GG\n".toList)) ∧
    ((runProgram ["a.txt"]
        (fun n => if n = "a.txt" then some ("IE,HUMAN,TT GG\n".toList) else none)).exitCode
      = 0) ∧
    ((runProgram ["a.txt"]
        (fun n => if n = "a.txt" then some ("IE,HUMAN,TT GG\n".toList) else none)).fs
          outputName
      = (runProgram ["b.txt"]
          (fun n => if n = "b.txt" then some ("IE,HUMAN,TT GG\n".toList)
            else some ("junk".toList))).fs outputName ∧
     (runProgram ["b.txt"]
        (fun n => if n = "b.txt" then some ("IE,HUMAN,TT GG\n".toList)
          else some ("junk".toList))).exitCode = 0) :=
  ⟨by decide, by decide, by decide,
    spliceC7_deterministic "a.txt" "b.txt"
      (fun n => if n = "a.txt" then some ("IE,HUMAN,TT GG\n".toList) else none)
      (fun n => if n = "b.txt" then some ("IE,HUMAN,TT GG\n".toList)
        else some ("junk".toList))
      ("IE,HUMAN,TT GG\n".toList) (by decide) (by decide) (by decide)⟩

/-- Witness for C8: two lines sharing fields 0 and 2 but differing in
field 1, one of them with a trailing fourth field. -/
theorem spliceC8_ignored_fields_witness :
    ((fieldsOf ("EI,HUMAN,AG C".toList))[0]?
      = (fieldsOf ("EI,MOUSE,AG C,X".toList))[0]?) ∧
    ((fieldsOf ("EI,HUMAN,AG C".toList))[2]?
      = (fieldsOf ("EI,MOUSE,AG C,X".toList))[2]?) ∧
    processLine ("EI,HUMAN,AG C".toList) = processLine ("EI,MOUSE,AG C,X".toList) :=
  ⟨by decide, by decide, spliceC8_ignored_fields _ _ (by decide) (by decide)⟩

/-- Witness for C9 at a readable input whose first line is well formed
and whose second line lacks a third field. -/
theorem spliceC9_no_partial_write_witness :
    ((fun n => if n = "mixed.txt" then some ("EI,HUMAN,ACGT\nIE\n".toList) else none)
        "mixed.txt" = some ("EI,HUMAN,ACGT\nIE\n".toList)) ∧
    (∃ l ∈ pyLines ("EI,HUMAN,ACGT\nIE\n".toList), (fieldsOf l).length < 3) ∧
    ((runProgram ["mixed.txt"]
        (fun n => if n = "mixed.txt" then some ("EI,HUMAN,ACGT\nIE\n".toList)
          else none)).fs
      = (fun n => if n = "mixed.txt" then some ("EI,HUMAN,ACGT\nIE\n".toList)
          else none) ∧
     (runProgram ["mixed.txt"]
        (fun n => if n = "mixed.txt" then some ("EI,HUMAN,ACGT\nIE\n".toList)
          else none)).exitCode ≠ 0) :=
  ⟨by decide, by decide,
    spliceC9_no_partial_write "mixed.txt"
      (fun n => if n = "mixed.txt" then some ("EI,HUMAN,ACGT\nIE\n".toList) else none)
      ("EI,HUMAN,ACGT\nIE\n".toList) (by decide) (by decide)⟩

/-- Witness for C10 at an existing, readable, empty input file. -/
theorem spliceC10_empty_input_witness :
    ((fun n => if n = "empty.txt" then some ([] : List Char) else none) "empty.txt"
      = some ([] : List Char)) ∧
    ((runProgram ["empty.txt"]
        (fun n => if n = "empty.txt" then some ([] : List Char) else none)).fs outputName
      = some [] ∧
     (runProgram ["empty.txt"]
        (fun n => if n = "empty.txt" then some ([] : List Char) else none)).stdout
      = [doneLine] ∧
     (runProgram ["empty.txt"]
        (fun n => if n = "empty.txt" then some ([] : List Char) else none)).exitCode
      = 0) :=
  ⟨by decide, spliceC10_empty_input "empty.txt" _ (by decide)⟩
